import Mathlib

/-!
Verification of the superhero data client (`superhero_api/client.py`) and its
file-backed cache (`superhero_api/cache.py`).

The Python code is shallowly embedded: JSON values become an inductive `Json`
type, Python dictionaries become association lists, the HTTP transport becomes
an explicit stub function from request paths to outcomes, and exceptions become
`Except PyErr`.  Python truthiness (`or`, `if x:`) is modelled by `pyTruthy`.
-/

/-- JSON values, as produced by `requests.Response.json` / stored in the cache.
Python `None` is `Json.null`; a Python dict is an ordered association list. -/
inductive Json where
  | null
  | bool (b : Bool)
  | num (n : Int)
  | str (s : String)
  | arr (l : List Json)
  | obj (m : List (String × Json))

/-- Python exceptions that the embedded code can raise. -/
inductive PyErr where
  | valueError
  | attributeError
  | typeError
deriving DecidableEq

/-- First binding of key `k` in a dict, if any (`k in d` view of a dict). -/
def findk : List (String × Json) → String → Option Json
  | [], _ => none
  | (k', v) :: rest, k => if k' = k then some v else findk rest k

/-- Python `d.get(k)`: the bound value, or `None` when the key is absent. -/
def getd (m : List (String × Json)) (k : String) : Json :=
  (findk m k).getD Json.null

/-- Python `d.get(k, default)`. -/
def pyGetD (m : List (String × Json)) (k : String) (dflt : Json) : Json :=
  (findk m k).getD dflt

/-- Python `d[k] = v`: replace the binding in place, or append a new one. -/
def setk : List (String × Json) → String → Json → List (String × Json)
  | [], k, v => [(k, v)]
  | (k', v') :: rest, k, v =>
    if k' = k then (k, v) :: rest else (k', v') :: setk rest k v

/-- Python truthiness of a JSON value (`bool(x)`). -/
def pyTruthy : Json → Bool
  | Json.null => false
  | Json.bool b => b
  | Json.num n => n ≠ 0
  | Json.str s => s ≠ ""
  | Json.arr l => !l.isEmpty
  | Json.obj m => !m.isEmpty

/-- Python `a or b`. -/
def pyOr (a b : Json) : Json := if pyTruthy a then a else b

/-- Python `str(x)`.  Exact for `None`, booleans, integers and strings (the
only shapes the claims evaluate it on); containers get a placeholder. -/
def pyStr : Json → String
  | Json.null => "None"
  | Json.bool true => "True"
  | Json.bool false => "False"
  | Json.num n => toString n
  | Json.str s => s
  | Json.arr _ => "<list>"
  | Json.obj _ => "<dict>"

/-- Python `x.get k` where `x` may not be a dict: `AttributeError` then. -/
def Json.dget : Json → String → Except PyErr Json
  | Json.obj m, k => Except.ok (getd m k)
  | _, _ => Except.error PyErr.attributeError

/-! ## Image slug (`_slug`, `hero_image_url` in client.py)

`_slug` is
```
s = (name or "").lower().strip()
s = re.sub(r"[^\w\s-]", "", s)
s = re.sub(r"[-\s]+", "-", s).strip("-")
return s or "unknown"
```
modelled over ASCII: `\w` is alphanumeric-or-underscore, `\s` is the six
ASCII whitespace characters. -/

/-- Python regex `\s` (ASCII part). -/
def isSpaceCh (c : Char) : Bool :=
  c = ' ' || c = '\t' || c = '\n' || c = '\r' || c = '\x0b' || c = '\x0c'

/-- Python regex `\w` (ASCII part): alphanumeric or underscore. -/
def isWordCh (c : Char) : Bool := c.isAlphanum || c = '_'

/-- Character class kept by `re.sub(r"[^\w\s-]", "", s)`. -/
def allowedCh (c : Char) : Bool := isWordCh c || isSpaceCh c || c = '-'

/-- Character class `[-\s]` of the collapsing substitution. -/
def hsCh (c : Char) : Bool := isSpaceCh c || c = '-'

/-- Python `str.strip()`: drop whitespace from both ends. -/
def wsTrim (l : List Char) : List Char :=
  ((l.dropWhile fun c => isSpaceCh c).reverse.dropWhile fun c => isSpaceCh c).reverse

/-- First phase of `re.sub(r"[-\s]+", "-", s)`: each `[-\s]` char to `'-'`. -/
def mapHS (l : List Char) : List Char := l.map fun c => if hsCh c then '-' else c

/-- Second phase of `re.sub(r"[-\s]+", "-", s)`: collapse runs of `'-'`. -/
def squeeze : List Char → List Char
  | [] => []
  | c :: rest =>
    match squeeze rest with
    | [] => [c]
    | d :: tail => if c = '-' && d = '-' then d :: tail else c :: d :: tail

/-- Leading hyphens removed (half of `str.strip("-")`). -/
def dropLead (l : List Char) : List Char := l.dropWhile fun c => c = '-'

/-- Trailing hyphens removed (other half of `str.strip("-")`). -/
def dropTrail (l : List Char) : List Char :=
  (l.reverse.dropWhile fun c => c = '-').reverse

/-- Python `str.strip("-")`. -/
def trimHyphens (l : List Char) : List Char := dropLead (dropTrail l)

/-- The two regex substitutions and the final strip of `_slug`. -/
def slugCore (l : List Char) : List Char :=
  trimHyphens (squeeze (mapHS (l.filter allowedCh)))

/-- `_slug` from client.py. -/
def _slug (name : String) : String :=
  match slugCore (wsTrim (name.toList.map Char.toLower)) with
  | [] => "unknown"
  | r => String.mk r

def IMAGE_BASE : String :=
  "https://cdn.jsdelivr.net/gh/akabab/superhero-api@0.3.0/api/images/md"

/-- `hero_image_url` from client.py (the id is formatted with `str`). -/
def hero_image_url (heroId : Json) (name : String) : String :=
  IMAGE_BASE ++ "/" ++ pyStr heroId ++ "-" ++ _slug name ++ ".jpg"

/-- Modelled from the spec: the slug procedure exactly as the claim words it —
characters that are not alphanumeric, whitespace, or hyphen are removed
(underscore is *not* kept). Used to compare the claim against `_slug`. -/
def allowedSpecCh (c : Char) : Bool := c.isAlphanum || isSpaceCh c || c = '-'

/-- Modelled from the spec: slug per the claim's wording (no underscore kept). -/
def slugSpec (name : String) : String :=
  match trimHyphens (squeeze (mapHS ((name.toList.map Char.toLower).filter allowedSpecCh))) with
  | [] => "unknown"
  | r => String.mk r

/-- The amended keep-set: alphanumeric, underscore, whitespace, or hyphen. -/
def allowedAmendedCh (c : Char) : Bool :=
  c.isAlphanum || c = '_' || isSpaceCh c || c = '-'

/-- Slug per the amended claim wording: lowercase, remove every character that
is not alphanumeric, underscore, whitespace, or hyphen, collapse `[-\s]` runs
to single hyphens, trim hyphens, default to "unknown". -/
def slugAmended (name : String) : String :=
  match trimHyphens (squeeze (mapHS ((name.toList.map Char.toLower).filter allowedAmendedCh))) with
  | [] => "unknown"
  | r => String.mk r

/-! ## Transport and client state (`SuperheroAPIClient` in client.py)

The HTTP session is a deterministic stub: `tr` maps an API request path to an
outcome, `trAll` is the outcome of fetching the bulk fallback dataset.  Every
issued request is recorded in `reqs` so call counts can be asserted. -/

/-- Outcome of one `session.get`: a transport failure, a non-2xx status,
a JSON parse failure, or a parsed body. -/
inductive TOutcome where
  | timeout
  | connError
  | httpError
  | parseError
  | ok (body : Json)

def TOutcome.isFailure : TOutcome → Bool
  | TOutcome.ok _ => false
  | _ => true

/-- A recorded outbound request: an API endpoint URL, or the fallback URL. -/
inductive Req where
  | api (url : String)
  | allJson
deriving DecidableEq

/-- Number of fetches of the bulk fallback dataset URL among the recorded
requests. -/
def countAllJson (rs : List Req) : Nat :=
  (rs.filter fun r => match r with
    | Req.allJson => true
    | _ => false).length

/-- Client configuration: bearer token ("" means anonymous mode, Python's
falsy token) and the stubbed transport. -/
structure ClientCfg where
  token : String
  tr : String → TOutcome
  trAll : TOutcome

/-- Mutable state threaded through the client: the key-value cache contents
and the requests issued so far. -/
structure ClientSt where
  cache : List (String × Json)
  reqs : List Req

def SUPERHERO_API_BASE : String := "https://superheroapi.com/api"

def AKABAB_ALL_JSON : String :=
  "https://cdn.jsdelivr.net/gh/akabab/superhero-api@0.3.0/api/all.json"

def HERO_LIST_KEY : String := "__hero_list__"

/-- `SuperheroAPIClient._url`: raises ValueError when no token is set. -/
def _url (cfg : ClientCfg) (path : String) : Except PyErr String :=
  if cfg.token = "" then Except.error PyErr.valueError
  else Except.ok (SUPERHERO_API_BASE ++ "/" ++ cfg.token ++ "/" ++
    String.mk (path.toList.dropWhile fun c => c = '/'))

/-- `SuperheroAPIClient._get`: no token short-circuits to None; transport,
status and parse failures are caught and become None; an error-shaped body
(`response == "error"`) becomes None; `data.get` on a non-dict body raises
AttributeError, which the `except` clause does not catch. -/
def _get (cfg : ClientCfg) (st : ClientSt) (path : String) :
    Except PyErr (Json × ClientSt) :=
  if cfg.token = "" then Except.ok (Json.null, st)
  else
    match _url cfg path with
    | Except.error e => Except.error e
    | Except.ok url =>
      let st1 : ClientSt := { st with reqs := st.reqs ++ [Req.api url] }
      match cfg.tr path with
      | TOutcome.ok data =>
        match data with
        | Json.obj m =>
          match getd m "response" with
          | Json.str "error" => Except.ok (Json.null, st1)
          | _ => Except.ok (data, st1)
        | _ => Except.error PyErr.attributeError
      | _ => Except.ok (Json.null, st1)

/-- The per-item normalisation done inside `_fetch_all_fallback`'s loop:
build the `{gender, race, height, weight, eye-color, hair-color}` appearance
dict and the `{id, name, appearance}` hero dict. -/
def normalizeItem : Json → Except PyErr Json
  | Json.obj m =>
    match pyOr (getd m "appearance") (Json.obj []) with
    | Json.obj am =>
      Except.ok (Json.obj [
        ("id", Json.str (pyStr (pyGetD m "id" (Json.str "")))),
        ("name", pyGetD m "name" (Json.str "Unknown")),
        ("appearance", Json.obj [
          ("gender", getd am "gender"),
          ("race", getd am "race"),
          ("height", pyOr (getd am "height") (Json.arr [])),
          ("weight", pyOr (getd am "weight") (Json.arr [])),
          ("eye-color", pyOr (getd am "eyeColor") (getd am "eye-color")),
          ("hair-color", pyOr (getd am "hairColor") (getd am "hair-color"))])])
    | _ => Except.error PyErr.attributeError
  | _ => Except.error PyErr.attributeError

/-- Python `for item in raw` over an arbitrary JSON value: lists yield their
elements, strings their characters, dicts their keys; others raise. -/
def pyIter : Json → Except PyErr (List Json)
  | Json.arr l => Except.ok l
  | Json.str s => Except.ok (s.toList.map fun c => Json.str (String.mk [c]))
  | Json.obj m => Except.ok (m.map fun p => Json.str p.1)
  | _ => Except.error PyErr.typeError

/-- The body of `_fetch_all_fallback`'s loop: normalise each entry, append it
to `heroes`, and cache the *raw* entry under `char_{item.get('id')}`. -/
def fallbackLoop : List Json → List (String × Json) → List Json →
    Except PyErr (List Json × List (String × Json))
  | [], cache, heroes => Except.ok (heroes, cache)
  | item :: rest, cache, heroes =>
    match normalizeItem item with
    | Except.error e => Except.error e
    | Except.ok hero =>
      match item with
      | Json.obj m =>
        fallbackLoop rest (setk cache ("char_" ++ pyStr (getd m "id")) item)
          (heroes ++ [hero])
      | _ => Except.error PyErr.attributeError

/-- `SuperheroAPIClient._fetch_all_fallback`: reuse the cached hero-list
snapshot if present; otherwise fetch the bulk dataset, normalise it, cache
each raw entry, and cache the snapshot only when at least one hero exists. -/
def _fetch_all_fallback (cfg : ClientCfg) (st : ClientSt) :
    Except PyErr (Json × ClientSt) :=
  match getd st.cache HERO_LIST_KEY with
  | Json.null =>
    let st1 : ClientSt := { st with reqs := st.reqs ++ [Req.allJson] }
    match cfg.trAll with
    | TOutcome.ok raw =>
      match pyIter raw with
      | Except.error e => Except.error e
      | Except.ok items =>
        match fallbackLoop items st1.cache [] with
        | Except.error e => Except.error e
        | Except.ok (heroes, cache1) =>
          match heroes with
          | [] => Except.ok (Json.arr [], { st1 with cache := cache1 })
          | _ => Except.ok (Json.arr heroes,
              { st1 with cache := setk cache1 HERO_LIST_KEY (Json.arr heroes) })
    | _ => Except.ok (Json.arr [], st1)
  | cached => Except.ok (cached, st)

/-- `SuperheroAPIClient.get_character`: cache-first under `char_{id}`; on miss
use the API (token mode, caching only non-None data) or load the fallback
dataset and re-check the cache (anonymous mode). -/
def get_character (cfg : ClientCfg) (st : ClientSt) (cid : Json) :
    Except PyErr (Json × ClientSt) :=
  let key := "char_" ++ pyStr cid
  match getd st.cache key with
  | Json.null =>
    if cfg.token = "" then
      match _fetch_all_fallback cfg st with
      | Except.error e => Except.error e
      | Except.ok (_, st1) => Except.ok (getd st1.cache key, st1)
    else
      match _get cfg st (pyStr cid) with
      | Except.error e => Except.error e
      | Except.ok (data, st1) =>
        match data with
        | Json.null => Except.ok (Json.null, st1)
        | _ => Except.ok (data, { st1 with cache := setk st1.cache key data })
  | cached => Except.ok (cached, st)

/-- The appearance dict built by `get_appearance` from a full record. -/
def extractAppearance : Json → Except PyErr Json
  | Json.obj m =>
    match pyOr (getd m "appearance") (Json.obj []) with
    | Json.obj am =>
      Except.ok (Json.obj [
        ("response", Json.str "success"),
        ("id", getd m "id"),
        ("name", getd m "name"),
        ("gender", getd am "gender"),
        ("race", getd am "race"),
        ("height", pyOr (getd am "height") (Json.arr [])),
        ("weight", pyOr (getd am "weight") (Json.arr [])),
        ("eye-color", pyOr (getd am "eyeColor") (getd am "eye-color")),
        ("hair-color", pyOr (getd am "hairColor") (getd am "hair-color"))])
    | _ => Except.error PyErr.attributeError
  | _ => Except.error PyErr.attributeError

/-- `SuperheroAPIClient.get_appearance`. -/
def get_appearance (cfg : ClientCfg) (st : ClientSt) (cid : Json) :
    Except PyErr (Json × ClientSt) :=
  match get_character cfg st cid with
  | Except.error e => Except.error e
  | Except.ok (full, st1) =>
    if pyTruthy full then
      match extractAppearance full with
      | Except.error e => Except.error e
      | Except.ok a => Except.ok (a, st1)
    else
      let key := "appearance_" ++ pyStr cid
      match getd st1.cache key with
      | Json.null =>
        if cfg.token = "" then Except.ok (Json.null, st1)
        else
          match _get cfg st1 (pyStr cid ++ "/appearance") with
          | Except.error e => Except.error e
          | Except.ok (data, st2) =>
            match data with
            | Json.null => Except.ok (Json.null, st2)
            | _ => Except.ok (data, { st2 with cache := setk st2.cache key data })
      | cached => Except.ok (cached, st1)

/-- The biography dict built by `get_biography` from a full record. -/
def extractBiography : Json → Except PyErr Json
  | Json.obj m =>
    match pyOr (getd m "biography") (Json.obj []) with
    | Json.obj bm =>
      Except.ok (Json.obj [
        ("response", Json.str "success"),
        ("id", getd m "id"),
        ("name", getd m "name"),
        ("full-name", pyOr (getd bm "full-name") (getd bm "fullName")),
        ("alter-egos", pyOr (getd bm "alter-egos") (getd bm "alterEgos")),
        ("aliases", pyOr (getd bm "aliases") (Json.arr [])),
        ("place-of-birth", pyOr (getd bm "place-of-birth") (getd bm "placeOfBirth")),
        ("first-appearance", pyOr (getd bm "first-appearance") (getd bm "firstAppearance")),
        ("publisher", getd bm "publisher"),
        ("alignment", getd bm "alignment")])
    | _ => Except.error PyErr.attributeError
  | _ => Except.error PyErr.attributeError

/-- `SuperheroAPIClient.get_biography`. -/
def get_biography (cfg : ClientCfg) (st : ClientSt) (cid : Json) :
    Except PyErr (Json × ClientSt) :=
  match get_character cfg st cid with
  | Except.error e => Except.error e
  | Except.ok (full, st1) =>
    if pyTruthy full then
      match extractBiography full with
      | Except.error e => Except.error e
      | Except.ok a => Except.ok (a, st1)
    else
      let key := "biography_" ++ pyStr cid
      match getd st1.cache key with
      | Json.null =>
        if cfg.token = "" then Except.ok (Json.null, st1)
        else
          match _get cfg st1 (pyStr cid ++ "/biography") with
          | Except.error e => Except.error e
          | Except.ok (data, st2) =>
            match data with
            | Json.null => Except.ok (Json.null, st2)
            | _ => Except.ok (data, { st2 with cache := setk st2.cache key data })
      | cached => Except.ok (cached, st1)

/-- The powerstats dict built by `get_powerstats` from a full record. -/
def extractPowerstats : Json → Except PyErr Json
  | Json.obj m =>
    match pyOr (getd m "powerstats") (Json.obj []) with
    | Json.obj sm =>
      Except.ok (Json.obj [
        ("response", Json.str "success"),
        ("id", getd m "id"),
        ("name", getd m "name"),
        ("intelligence", pyOr (getd sm "intelligence") (getd sm "Intelligence")),
        ("strength", pyOr (getd sm "strength") (getd sm "Strength")),
        ("speed", pyOr (getd sm "speed") (getd sm "Speed")),
        ("durability", pyOr (getd sm "durability") (getd sm "Durability")),
        ("power", pyOr (getd sm "power") (getd sm "Power")),
        ("combat", pyOr (getd sm "combat") (getd sm "Combat"))])
    | _ => Except.error PyErr.attributeError
  | _ => Except.error PyErr.attributeError

/-- `SuperheroAPIClient.get_powerstats`. -/
def get_powerstats (cfg : ClientCfg) (st : ClientSt) (cid : Json) :
    Except PyErr (Json × ClientSt) :=
  match get_character cfg st cid with
  | Except.error e => Except.error e
  | Except.ok (full, st1) =>
    if pyTruthy full then
      match extractPowerstats full with
      | Except.error e => Except.error e
      | Except.ok a => Except.ok (a, st1)
    else
      let key := "powerstats_" ++ pyStr cid
      match getd st1.cache key with
      | Json.null =>
        if cfg.token = "" then Except.ok (Json.null, st1)
        else
          match _get cfg st1 (pyStr cid ++ "/powerstats") with
          | Except.error e => Except.error e
          | Except.ok (data, st2) =>
            match data with
            | Json.null => Except.ok (Json.null, st2)
            | _ => Except.ok (data, { st2 with cache := setk st2.cache key data })
      | cached => Except.ok (cached, st1)

/-- The loop of `get_hero_list` in token mode: fetch each id, skip falsy
records, and assemble `{id, name, appearance}` summaries. -/
def heroListLoop (cfg : ClientCfg) : List Int → ClientSt → List Json →
    Except PyErr (List Json × ClientSt)
  | [], st, heroes => Except.ok (heroes, st)
  | i :: rest, st, heroes =>
    match get_character cfg st (Json.num i) with
    | Except.error e => Except.error e
    | Except.ok (char, st1) =>
      if pyTruthy char then
        match char with
        | Json.obj m =>
          heroListLoop cfg rest st1 (heroes ++ [Json.obj [
            ("id", getd m "id"),
            ("name", pyGetD m "name" (Json.str "Unknown")),
            ("appearance", pyOr (getd m "appearance") (Json.obj []))]])
        | _ => Except.error PyErr.attributeError
      else heroListLoop cfg rest st1 heroes

/-- `SuperheroAPIClient.get_hero_list`: snapshot-first; anonymous mode uses
the fallback dataset; token mode iterates the id range (default 1..100) and
caches the snapshot only when non-empty. -/
def get_hero_list (cfg : ClientCfg) (st : ClientSt) (idRange : Option (List Int)) :
    Except PyErr (Json × ClientSt) :=
  match getd st.cache HERO_LIST_KEY with
  | Json.null =>
    if cfg.token = "" then _fetch_all_fallback cfg st
    else
      let ids := idRange.getD ((List.range 100).map fun n => (n : Int) + 1)
      match heroListLoop cfg ids st [] with
      | Except.error e => Except.error e
      | Except.ok (heroes, st1) =>
        match heroes with
        | [] => Except.ok (Json.arr [], st1)
        | _ => Except.ok (Json.arr heroes,
            { st1 with cache := setk st1.cache HERO_LIST_KEY (Json.arr heroes) })
  | cached => Except.ok (cached, st)

/-! ## File-backed cache (`cache.py`)

The JSON document on disk is modelled as the mapping it serialises
(`json.dump`/`json.load` round-trip JSON-serialisable mappings, and every
`Json` value here is JSON-serialisable by construction); a missing or corrupt
file is `none` (both load as the empty mapping).  The process-wide
`_memory`/`_loaded` globals are `CacheMem`; a fresh process re-reading the
document starts from `{ memory := [], loaded := false }`. -/

/-- The filesystem seen by `cache.py`: the document (or none) and whether
writes succeed (`OSError` on save is silently swallowed). -/
structure FileSys where
  disk : Option (List (String × Json))
  writable : Bool

/-- The module-level `_memory` / `_loaded` pair. -/
structure CacheMem where
  memory : List (String × Json)
  loaded : Bool

/-- `_ensure_loaded`: load the document into memory at most once. -/
def ensureLoaded (fs : FileSys) (m : CacheMem) : CacheMem :=
  if m.loaded then m
  else { memory := fs.disk.getD [], loaded := true }

/-- `_save`: persist the whole mapping; failures are swallowed. -/
def cacheSave (m : CacheMem) (fs : FileSys) : FileSys :=
  if fs.writable then { fs with disk := some m.memory } else fs

/-- `_JsonFileCache.get`. -/
def fileCacheGet (fs : FileSys) (m : CacheMem) (k : String) : Json × CacheMem :=
  let m1 := ensureLoaded fs m
  (getd m1.memory k, m1)

/-- `_JsonFileCache.set`. -/
def fileCacheSet (fs : FileSys) (m : CacheMem) (k : String) (v : Json) :
    FileSys × CacheMem :=
  let m1 := ensureLoaded fs m
  let m2 : CacheMem := { m1 with memory := setk m1.memory k v }
  (cacheSave m2 fs, m2)

/-- The cache key under which `_fetch_all_fallback` stores a raw dataset
entry: `char_{item.get('id')}`. -/
def itemKey (it : Json) : String :=
  "char_" ++ pyStr (match it with
    | Json.obj m => getd m "id"
    | _ => Json.null)

/-- `normalizeItem` mapped over a list, failing on the first error — the
sequence of hero summaries `_fetch_all_fallback` accumulates. -/
def mapNormalize : List Json → Except PyErr (List Json)
  | [] => Except.ok []
  | x :: xs =>
    match normalizeItem x with
    | Except.error e => Except.error e
    | Except.ok y =>
      match mapNormalize xs with
      | Except.error e => Except.error e
      | Except.ok ys => Except.ok (y :: ys)

/-! ## Shared lemmas about the dict operations -/

theorem findk_setk_self (m : List (String × Json)) (k : String) (v : Json) :
    findk (setk m k v) k = some v := by
  induction m with
  | nil => simp [setk, findk]
  | cons p rest ih =>
    obtain ⟨k', v'⟩ := p
    by_cases h : k' = k
    · simp [setk, h, findk]
    · simp [setk, h, findk, ih]

theorem findk_setk_other (m : List (String × Json)) (k : String) (v : Json)
    (k' : String) (h : k' ≠ k) : findk (setk m k v) k' = findk m k' := by
  induction m with
  | nil =>
    simp [setk, findk]
    exact fun hh => h hh.symm
  | cons p rest ih =>
    obtain ⟨k1, v1⟩ := p
    by_cases h1 : k1 = k
    · subst h1
      simp [setk, findk]
      rw [if_neg (Ne.symm h), if_neg (Ne.symm h)]
    · simp [setk, h1, findk, ih]

theorem getd_setk_self (m : List (String × Json)) (k : String) (v : Json) :
    getd (setk m k v) k = v := by
  simp [getd, findk_setk_self]

theorem getd_setk_other (m : List (String × Json)) (k : String) (v : Json)
    (k' : String) (h : k' ≠ k) : getd (setk m k v) k' = getd m k' := by
  simp [getd, findk_setk_other m k v k' h]

/-- No per-character cache key collides with the hero-list snapshot key. -/
theorem charKey_ne_snapshot (s : String) : "char_" ++ s ≠ HERO_LIST_KEY := by
  intro h
  have h2 := congrArg String.data h
  rw [String.data_append] at h2
  simp [HERO_LIST_KEY] at h2

/-- `_get` never touches the cache. -/
theorem _get_cache_eq (cfg : ClientCfg) (st : ClientSt) (p : String) (r : Json)
    (st' : ClientSt) (h : _get cfg st p = Except.ok (r, st')) :
    st'.cache = st.cache := by
  unfold _get _url at h
  repeat' split at h
  all_goals simp at h
  all_goals obtain ⟨-, h2⟩ := h
  all_goals subst h2
  all_goals rfl

/-! ## Slug lemmas: the initial whitespace strip of `_slug` is absorbed by
the collapse-and-trim phases, so `_slug` agrees with the amended spec
pipeline (which has no initial strip). -/

theorem allowedCh_eq_amended : allowedCh = allowedAmendedCh := by
  funext c
  simp [allowedCh, isWordCh, allowedAmendedCh, Bool.or_assoc]

theorem squeeze_cons_hyphen (y : List Char) :
    squeeze ('-' :: y) = squeeze y ∨ squeeze ('-' :: y) = '-' :: squeeze y := by
  cases hs : squeeze y with
  | nil =>
    right
    unfold squeeze
    rw [hs]
  | cons d tail =>
    by_cases hd : d = '-'
    · left
      unfold squeeze
      rw [hs]
      simp [hd]
    · right
      unfold squeeze
      rw [hs]
      simp [hd]

theorem squeeze_append_hyphen (y : List Char) :
    squeeze (y ++ ['-']) = squeeze y ∨ squeeze (y ++ ['-']) = squeeze y ++ ['-'] := by
  induction y with
  | nil => right; rfl
  | cons c rest ih =>
    have hcons : ∀ z : List Char, squeeze (c :: z) =
        match squeeze z with
        | [] => [c]
        | d :: tail => if c = '-' && d = '-' then d :: tail
            else c :: d :: tail := fun z => rfl
    rw [List.cons_append, hcons, hcons]
    rcases ih with h | h
    · left; rw [h]
    · rw [h]
      cases hs : squeeze rest with
      | nil =>
        simp only [List.nil_append]
        by_cases hc : c = '-'
        · left; simp [hc]
        · right; simp [hc]
      | cons d tail =>
        right
        by_cases hc : (c = '-' && d = '-') = true
        · simp [hc]
        · simp [hc]

theorem dropTrail_append_hyphen (w : List Char) :
    dropTrail (w ++ ['-']) = dropTrail w := by
  unfold dropTrail
  rw [List.reverse_append]
  simp [List.dropWhile]

theorem trimHyphens_cons_hyphen (w : List Char) :
    trimHyphens ('-' :: w) = trimHyphens w := by
  unfold trimHyphens dropTrail dropLead
  rw [List.reverse_cons, List.dropWhile_append]
  cases hd : w.reverse.dropWhile (fun c => c = '-') with
  | nil => simp [List.dropWhile]
  | cons d tail => simp [List.dropWhile]

theorem trim_squeeze_cons (y : List Char) :
    trimHyphens (squeeze ('-' :: y)) = trimHyphens (squeeze y) := by
  rcases squeeze_cons_hyphen y with h | h <;> rw [h]
  exact trimHyphens_cons_hyphen _

theorem trim_squeeze_append (y : List Char) :
    trimHyphens (squeeze (y ++ ['-'])) = trimHyphens (squeeze y) := by
  rcases squeeze_append_hyphen y with h | h <;> rw [h]
  unfold trimHyphens
  rw [dropTrail_append_hyphen]

theorem slugCore_cons_space (c : Char) (l : List Char) (hc : isSpaceCh c = true) :
    slugCore (c :: l) = slugCore l := by
  have h1 : allowedCh c = true := by simp [allowedCh, hc]
  have h2 : hsCh c = true := by simp [hsCh, hc]
  unfold slugCore mapHS
  rw [List.filter_cons, if_pos h1, List.map_cons, h2]
  exact trim_squeeze_cons _

theorem slugCore_append_space (c : Char) (l : List Char) (hc : isSpaceCh c = true) :
    slugCore (l ++ [c]) = slugCore l := by
  have h1 : allowedCh c = true := by simp [allowedCh, hc]
  have h2 : hsCh c = true := by simp [hsCh, hc]
  unfold slugCore mapHS
  rw [List.filter_append, List.map_append]
  have hfc : List.filter allowedCh [c] = [c] := by
    rw [List.filter_cons, if_pos h1]; rfl
  rw [hfc]
  have hmc : List.map (fun c => if hsCh c then '-' else c) [c] = ['-'] := by
    rw [List.map_cons, h2]; rfl
  rw [hmc]
  exact trim_squeeze_append _

theorem slugCore_dropWhile_space (l : List Char) :
    slugCore (l.dropWhile fun c => isSpaceCh c) = slugCore l := by
  induction l with
  | nil => rfl
  | cons c rest ih =>
    by_cases hc : isSpaceCh c = true
    · rw [List.dropWhile_cons_of_pos hc, ih, ← slugCore_cons_space c rest hc]
    · rw [List.dropWhile_cons_of_neg (by simpa using hc)]

theorem slugCore_revDropWhile_space (l : List Char) :
    slugCore ((l.reverse.dropWhile fun c => isSpaceCh c).reverse) = slugCore l := by
  have key : ∀ y : List Char,
      slugCore ((y.dropWhile fun c => isSpaceCh c).reverse) = slugCore y.reverse := by
    intro y
    induction y with
    | nil => rfl
    | cons c rest ih =>
      by_cases hc : isSpaceCh c = true
      · rw [List.dropWhile_cons_of_pos hc, ih, List.reverse_cons,
          slugCore_append_space c rest.reverse hc]
      · rw [List.dropWhile_cons_of_neg (by simpa using hc)]
  have h := key l.reverse
  rwa [List.reverse_reverse] at h

theorem slugCore_wsTrim (l : List Char) : slugCore (wsTrim l) = slugCore l := by
  unfold wsTrim
  rw [slugCore_revDropWhile_space, slugCore_dropWhile_space]

theorem _slug_eq_slugAmended (name : String) : _slug name = slugAmended name := by
  have hm : ∀ l : List Char,
      trimHyphens (squeeze (mapHS (l.filter allowedCh))) = slugCore l := fun _ => rfl
  unfold _slug slugAmended
  rw [← allowedCh_eq_amended, hm, slugCore_wsTrim]

/-! ## Lemmas about `pyOr` and the literal appearance dicts -/

theorem pyOr_obj_default (am : List (String × Json)) :
    pyOr (Json.obj am) (Json.obj []) = Json.obj am := by
  cases am <;> simp [pyOr, pyTruthy]

theorem pyOr_null (b : Json) : pyOr Json.null b = b := by
  simp [pyOr, pyTruthy]

theorem pyOr_pos (a b : Json) (h : pyTruthy a = true) : pyOr a b = a := by
  simp [pyOr, h]

theorem getd_normApp_eye (g r hgt w e hc : Json) :
    getd [("gender", g), ("race", r), ("height", hgt), ("weight", w),
      ("eye-color", e), ("hair-color", hc)] "eye-color" = e := by
  simp [getd, findk]

theorem getd_normApp_hair (g r hgt w e hc : Json) :
    getd [("gender", g), ("race", r), ("height", hgt), ("weight", w),
      ("eye-color", e), ("hair-color", hc)] "hair-color" = hc := by
  simp [getd, findk]

theorem getd_normApp_height (g r hgt w e hc : Json) :
    getd [("gender", g), ("race", r), ("height", hgt), ("weight", w),
      ("eye-color", e), ("hair-color", hc)] "height" = hgt := by
  simp [getd, findk]

theorem getd_normApp_weight (g r hgt w e hc : Json) :
    getd [("gender", g), ("race", r), ("height", hgt), ("weight", w),
      ("eye-color", e), ("hair-color", hc)] "weight" = w := by
  simp [getd, findk]

theorem getd_extApp_eye (i n g r hgt w e hc : Json) :
    getd [("response", Json.str "success"), ("id", i), ("name", n),
      ("gender", g), ("race", r), ("height", hgt), ("weight", w),
      ("eye-color", e), ("hair-color", hc)] "eye-color" = e := by
  simp [getd, findk]

theorem pyOr_or_default (a b : Json) : pyOr (pyOr a b) b = pyOr a b := by
  by_cases h : pyTruthy a = true
  · rw [pyOr_pos a b h, pyOr_pos a b h]
  · have hb : pyOr a b = b := by simp [pyOr, h]
    rw [hb]
    by_cases h2 : pyTruthy b = true <;> simp [pyOr, h2]

theorem getd_hero3_app (a b c : Json) :
    getd [("id", a), ("name", b), ("appearance", c)] "appearance" = c := by
  simp [getd, findk]

theorem pyGetD_hero3_id (a b c d : Json) :
    pyGetD [("id", a), ("name", b), ("appearance", c)] "id" d = a := by
  simp [pyGetD, findk]

theorem pyGetD_hero3_name (a b c d : Json) :
    pyGetD [("id", a), ("name", b), ("appearance", c)] "name" d = b := by
  simp [pyGetD, findk]

theorem getd_normApp_gender (g r hgt w e hc : Json) :
    getd [("gender", g), ("race", r), ("height", hgt), ("weight", w),
      ("eye-color", e), ("hair-color", hc)] "gender" = g := by
  simp [getd, findk]

theorem getd_normApp_race (g r hgt w e hc : Json) :
    getd [("gender", g), ("race", r), ("height", hgt), ("weight", w),
      ("eye-color", e), ("hair-color", hc)] "race" = r := by
  simp [getd, findk]

theorem getd_normApp_eyeCamel (g r hgt w e hc : Json) :
    getd [("gender", g), ("race", r), ("height", hgt), ("weight", w),
      ("eye-color", e), ("hair-color", hc)] "eyeColor" = Json.null := by
  simp [getd, findk]

theorem getd_normApp_hairCamel (g r hgt w e hc : Json) :
    getd [("gender", g), ("race", r), ("height", hgt), ("weight", w),
      ("eye-color", e), ("hair-color", hc)] "hairColor" = Json.null := by
  simp [getd, findk]


/-! ## Claim theorems -/

/-- C1: In token mode, for every character id, if the primary API responds
with an error-shaped body (`response == "error"`) or the request suffers any
transport or JSON-parse failure, `get_character` returns absent (None) and
the cache is left unchanged — in particular no `char_{id}` entry is created. -/
theorem c1_token_error_returns_absent_nothing_cached
    (cfg : ClientCfg) (st : ClientSt) (cid : Json)
    (htok : cfg.token ≠ "")
    (hmiss : getd st.cache ("char_" ++ pyStr cid) = Json.null)
    (hfail : (cfg.tr (pyStr cid)).isFailure = true ∨
      ∃ m, cfg.tr (pyStr cid) = TOutcome.ok (Json.obj m) ∧
        getd m "response" = Json.str "error") :
    ∃ st', get_character cfg st cid = Except.ok (Json.null, st') ∧
      st'.cache = st.cache := by
  have hget : ∃ st1, _get cfg st (pyStr cid) = Except.ok (Json.null, st1) ∧
      st1.cache = st.cache := by
    unfold _get _url
    rw [if_neg htok, if_neg htok]
    rcases hfail with hf | ⟨m, hm, hr⟩
    · cases htr : cfg.tr (pyStr cid) with
      | ok body => rw [htr] at hf; simp [TOutcome.isFailure] at hf
      | timeout => exact ⟨_, rfl, rfl⟩
      | connError => exact ⟨_, rfl, rfl⟩
      | httpError => exact ⟨_, rfl, rfl⟩
      | parseError => exact ⟨_, rfl, rfl⟩
    · rw [hm]
      simp only [hr]
      exact ⟨_, rfl, rfl⟩
  obtain ⟨st1, hg, hc⟩ := hget
  unfold get_character
  simp only [hmiss, hg]
  rw [if_neg htok]
  exact ⟨st1, rfl, hc⟩

/-- Witness for C1: the spec's stub scenario — token mode, transport answers
`{"response": "error"}` for id 999999, empty cache. -/
theorem c1_witness :
    ∃ st', get_character
      { token := "t",
        tr := fun _ => TOutcome.ok (Json.obj [("response", Json.str "error")]),
        trAll := TOutcome.timeout }
      { cache := [], reqs := [] } (Json.num 999999) =
        Except.ok (Json.null, st') ∧ st'.cache = ([] : List (String × Json)) :=
  c1_token_error_returns_absent_nothing_cached _ _ _
    (by decide) (by rfl)
    (Or.inr ⟨[("response", Json.str "error")], rfl, rfl⟩)

/-- C2 counterexample: the claim describes the slug as "removing every
character that is not alphanumeric, whitespace, or hyphen", but the code's
`re.sub(r"[^\w\s-]", "", s)` keeps underscores (`\w` matches `_`).  On the
name "a_b" the code produces "a_b" while the claimed procedure (`slugSpec`,
worded exactly as the claim) produces "ab". -/
theorem c2_counterexample :
    _slug "a_b" = "a_b" ∧ slugSpec "a_b" = "ab" ∧ _slug "a_b" ≠ slugSpec "a_b" :=
  ⟨by decide, by decide, by decide⟩

/-- C8: the file-backed cache round-trips through its JSON document: after
`set(k, v)` persists the mapping (the filesystem being writable), a fresh
cache instance in a new process — empty memory, not yet loaded — pointed at
the same document returns `v` for `get(k)`.  (Every `Json` value is
JSON-serialisable by construction; `json.dump`/`json.load` round-tripping is
modelled as the document storing the mapping itself.) -/
theorem c8_file_cache_roundtrip (fs : FileSys) (m : CacheMem) (k : String)
    (v : Json) (hw : fs.writable = true) :
    (fileCacheGet (fileCacheSet fs m k v).1 { memory := [], loaded := false } k).1
      = v := by
  unfold fileCacheSet fileCacheGet cacheSave ensureLoaded
  simp [hw, getd_setk_self]

/-- Witness for C8: writing key "k" with value `{"a": 1}` to a fresh file
and reloading from a fresh instance yields `{"a": 1}`. -/
theorem c8_witness :
    (fileCacheGet
      (fileCacheSet { disk := none, writable := true }
        { memory := [], loaded := false } "k" (Json.obj [("a", Json.num 1)])).1
      { memory := [], loaded := false } "k").1 = Json.obj [("a", Json.num 1)] :=
  c8_file_cache_roundtrip _ _ _ _ rfl

/-- C2 (amended): `hero_image_url(id, name)` is a pure deterministic function
(it depends only on its two arguments — by construction it reads no cache or
network state) equal to `{imageBase}/{id}-{slug}.jpg`, where slug is computed
from name by lowercasing, removing every character that is not alphanumeric,
*underscore*, whitespace, or hyphen (the code's `\w` class keeps underscores —
this is the only amendment), collapsing runs of whitespace and hyphens into
single hyphens, trimming leading and trailing hyphens, and substituting
"unknown" when the result is empty; the claim's concrete examples all hold. -/
theorem c2_amended_hero_image_url :
    (∀ heroId name, hero_image_url heroId name =
      IMAGE_BASE ++ "/" ++ pyStr heroId ++ "-" ++ slugAmended name ++ ".jpg") ∧
    hero_image_url (Json.num 1) "Batman" = IMAGE_BASE ++ "/1-batman.jpg" ∧
    hero_image_url (Json.num 2) "Spider-Man" = IMAGE_BASE ++ "/2-spider-man.jpg" ∧
    _slug "A-Bomb (HAS)" = "a-bomb-has" ∧
    _slug "" = "unknown" := by
  refine ⟨fun heroId name => ?_, by decide, by decide, by decide, by decide⟩
  unfold hero_image_url
  rw [_slug_eq_slugAmended]

/-- Witness for C2 (amended), instantiated at id 3 and name "a_b c". -/
theorem c2_witness :
    hero_image_url (Json.num 3) "a_b c" =
      IMAGE_BASE ++ "/" ++ pyStr (Json.num 3) ++ "-" ++ slugAmended "a_b c" ++ ".jpg" :=
  c2_amended_hero_image_url.1 (Json.num 3) "a_b c"

/-- C3 counterexample: for an entry whose appearance has both
`eyeColor = "Blue"` and `eye-color = "Green"`, the normalisation maps the
camelCase value even though the hyphenated key is present (the code is
`app.get("eyeColor") or app.get("eye-color")`, so camelCase takes
precedence), refuting "mapped ... only if the hyphenated key is absent";
the same happens in `get_appearance`'s extraction. -/
theorem c3_counterexample :
    normalizeItem (Json.obj [("id", Json.num 7), ("name", Json.str "X"),
      ("appearance", Json.obj [("eyeColor", Json.str "Blue"),
        ("eye-color", Json.str "Green")])]) =
      Except.ok (Json.obj [("id", Json.str "7"), ("name", Json.str "X"),
        ("appearance", Json.obj [("gender", Json.null), ("race", Json.null),
          ("height", Json.arr []), ("weight", Json.arr []),
          ("eye-color", Json.str "Blue"), ("hair-color", Json.null)])]) ∧
    extractAppearance (Json.obj [("id", Json.num 7), ("name", Json.str "X"),
      ("appearance", Json.obj [("eyeColor", Json.str "Blue"),
        ("eye-color", Json.str "Green")])]) =
      Except.ok (Json.obj [("response", Json.str "success"),
        ("id", Json.num 7), ("name", Json.str "X"),
        ("gender", Json.null), ("race", Json.null),
        ("height", Json.arr []), ("weight", Json.arr []),
        ("eye-color", Json.str "Blue"), ("hair-color", Json.null)]) ∧
    Json.str "Blue" ≠ Json.str "Green" :=
  ⟨rfl, rfl, by simp⟩

/-- C3 (amended): during normalisation of a fallback-dataset record (both in
the wholesale list normalisation and in get_appearance's extraction), the
camelCase key eyeColor takes precedence: its value is used whenever truthy,
and the hyphenated eye-color value is used when eyeColor is absent;
hairColor/hair-color behave the same; an absent height or weight becomes the
empty list; the id is coerced to a string; and for an entry with
appearance.eyeColor = "Blue" and no eye-color key, get_appearance returns
eye-color == "Blue". -/
theorem c3_amended_normalization (m am : List (String × Json))
    (happ : getd m "appearance" = Json.obj am) :
    (∃ idStr name app,
      normalizeItem (Json.obj m) = Except.ok (Json.obj
        [("id", Json.str idStr), ("name", name), ("appearance", Json.obj app)]) ∧
      idStr = pyStr (pyGetD m "id" (Json.str "")) ∧
      (pyTruthy (getd am "eyeColor") = true →
        getd app "eye-color" = getd am "eyeColor") ∧
      (getd am "eyeColor" = Json.null →
        getd app "eye-color" = getd am "eye-color") ∧
      (pyTruthy (getd am "hairColor") = true →
        getd app "hair-color" = getd am "hairColor") ∧
      (getd am "hairColor" = Json.null →
        getd app "hair-color" = getd am "hair-color") ∧
      (getd am "height" = Json.null → getd app "height" = Json.arr []) ∧
      (getd am "weight" = Json.null → getd app "weight" = Json.arr [])) ∧
    (∃ ea,
      extractAppearance (Json.obj m) = Except.ok (Json.obj ea) ∧
      (pyTruthy (getd am "eyeColor") = true →
        getd ea "eye-color" = getd am "eyeColor") ∧
      (getd am "eyeColor" = Json.null →
        getd ea "eye-color" = getd am "eye-color")) ∧
    (∃ st', get_appearance
      { token := "", tr := fun _ => TOutcome.timeout,
        trAll := TOutcome.ok (Json.arr [Json.obj [("id", Json.num 1),
          ("name", Json.str "H"),
          ("appearance", Json.obj [("eyeColor", Json.str "Blue")])]]) }
      { cache := [], reqs := [] } (Json.num 1) =
      Except.ok (Json.obj [("response", Json.str "success"),
        ("id", Json.num 1), ("name", Json.str "H"),
        ("gender", Json.null), ("race", Json.null),
        ("height", Json.arr []), ("weight", Json.arr []),
        ("eye-color", Json.str "Blue"), ("hair-color", Json.null)], st')) := by
  refine ⟨?_, ?_, ⟨_, rfl⟩⟩
  · refine ⟨pyStr (pyGetD m "id" (Json.str "")), pyGetD m "name" (Json.str "Unknown"),
      [("gender", getd am "gender"), ("race", getd am "race"),
       ("height", pyOr (getd am "height") (Json.arr [])),
       ("weight", pyOr (getd am "weight") (Json.arr [])),
       ("eye-color", pyOr (getd am "eyeColor") (getd am "eye-color")),
       ("hair-color", pyOr (getd am "hairColor") (getd am "hair-color"))],
      ?_, rfl, ?_, ?_, ?_, ?_, ?_, ?_⟩
    · simp only [normalizeItem]
      rw [happ, pyOr_obj_default]
    · intro h
      rw [getd_normApp_eye, pyOr_pos _ _ h]
    · intro h
      rw [getd_normApp_eye, h, pyOr_null]
    · intro h
      rw [getd_normApp_hair, pyOr_pos _ _ h]
    · intro h
      rw [getd_normApp_hair, h, pyOr_null]
    · intro h
      rw [getd_normApp_height, h, pyOr_null]
    · intro h
      rw [getd_normApp_weight, h, pyOr_null]
  · refine ⟨[("response", Json.str "success"), ("id", getd m "id"),
      ("name", getd m "name"),
      ("gender", getd am "gender"), ("race", getd am "race"),
      ("height", pyOr (getd am "height") (Json.arr [])),
      ("weight", pyOr (getd am "weight") (Json.arr [])),
      ("eye-color", pyOr (getd am "eyeColor") (getd am "eye-color")),
      ("hair-color", pyOr (getd am "hairColor") (getd am "hair-color"))],
      ?_, ?_, ?_⟩
    · simp only [extractAppearance]
      rw [happ, pyOr_obj_default]
    · intro h
      rw [getd_extApp_eye, pyOr_pos _ _ h]
    · intro h
      rw [getd_extApp_eye, h, pyOr_null]

/-- Witness for C3 (amended): the end-to-end example — anonymous mode, one
dataset entry with `appearance.eyeColor = "Blue"` and no `eye-color` key;
`get_appearance(1)` returns a mapping whose `eye-color` is `"Blue"`. -/
theorem c3_witness :
    ∃ st', get_appearance
      { token := "", tr := fun _ => TOutcome.timeout,
        trAll := TOutcome.ok (Json.arr [Json.obj [("id", Json.num 1),
          ("name", Json.str "H"),
          ("appearance", Json.obj [("eyeColor", Json.str "Blue")])]]) }
      { cache := [], reqs := [] } (Json.num 1) =
      Except.ok (Json.obj [("response", Json.str "success"),
        ("id", Json.num 1), ("name", Json.str "H"),
        ("gender", Json.null), ("race", Json.null),
        ("height", Json.arr []), ("weight", Json.arr []),
        ("eye-color", Json.str "Blue"), ("hair-color", Json.null)], st') :=
  (c3_amended_normalization [("id", Json.num 1), ("name", Json.str "H"),
    ("appearance", Json.obj [("eyeColor", Json.str "Blue")])]
    [("eyeColor", Json.str "Blue")] rfl).2.2

/-- C7: the fallback-record normalisation is idempotent — applying it to a
record it has already produced yields exactly the same record. -/
theorem c7_normalization_idempotent (x y : Json)
    (hx : normalizeItem x = Except.ok y) : normalizeItem y = Except.ok y := by
  cases x with
  | obj m =>
    cases happ : pyOr (getd m "appearance") (Json.obj []) with
    | obj am =>
      simp only [normalizeItem, happ] at hx
      injection hx with hx'
      subst hx'
      simp only [normalizeItem, getd_hero3_app, pyOr_obj_default,
        pyGetD_hero3_id, pyGetD_hero3_name, pyStr,
        getd_normApp_gender, getd_normApp_race,
        getd_normApp_height, getd_normApp_weight,
        getd_normApp_eye, getd_normApp_hair,
        getd_normApp_eyeCamel, getd_normApp_hairCamel,
        pyOr_or_default, pyOr_null]
    | null => simp only [normalizeItem, happ] at hx; exact Except.noConfusion hx
    | bool b => simp only [normalizeItem, happ] at hx; exact Except.noConfusion hx
    | num n => simp only [normalizeItem, happ] at hx; exact Except.noConfusion hx
    | str s => simp only [normalizeItem, happ] at hx; exact Except.noConfusion hx
    | arr l => simp only [normalizeItem, happ] at hx; exact Except.noConfusion hx
  | null => exact Except.noConfusion hx
  | bool b => exact Except.noConfusion hx
  | num n => exact Except.noConfusion hx
  | str s => exact Except.noConfusion hx
  | arr l => exact Except.noConfusion hx

/-- Witness for C7: a concrete raw dataset entry normalises to a record that
re-normalises to itself. -/
theorem c7_witness :
    normalizeItem (Json.obj [("id", Json.str "1"), ("name", Json.str "A-Bomb"),
      ("appearance", Json.obj [("gender", Json.null), ("race", Json.null),
        ("height", Json.arr []), ("weight", Json.arr []),
        ("eye-color", Json.str "Yellow"), ("hair-color", Json.null)])]) =
    Except.ok (Json.obj [("id", Json.str "1"), ("name", Json.str "A-Bomb"),
      ("appearance", Json.obj [("gender", Json.null), ("race", Json.null),
        ("height", Json.arr []), ("weight", Json.arr []),
        ("eye-color", Json.str "Yellow"), ("hair-color", Json.null)])]) :=
  c7_normalization_idempotent
    (Json.obj [("id", Json.num 1), ("name", Json.str "A-Bomb"),
      ("appearance", Json.obj [("eyeColor", Json.str "Yellow")])]) _ rfl
/-- If `get_character` returns a non-None value, that value sits in the final
cache under `char_{id}` — across all three code paths. -/
theorem get_character_caches (cfg : ClientCfg) (st : ClientSt) (cid : Json)
    (v : Json) (st' : ClientSt)
    (h : get_character cfg st cid = Except.ok (v, st')) (hv : v ≠ Json.null) :
    getd st'.cache ("char_" ++ pyStr cid) = v := by
  simp only [get_character] at h
  cases hc : getd st.cache ("char_" ++ pyStr cid) with
  | null =>
    rw [hc] at h
    by_cases htok : cfg.token = ""
    · rw [if_pos htok] at h
      cases hf : _fetch_all_fallback cfg st with
      | error e => rw [hf] at h; exact Except.noConfusion h
      | ok p =>
        obtain ⟨r, st1⟩ := p
        rw [hf] at h
        simp only [Except.ok.injEq, Prod.mk.injEq] at h
        obtain ⟨h1, h2⟩ := h
        subst h2
        exact h1
    · rw [if_neg htok] at h
      cases hg : _get cfg st (pyStr cid) with
      | error e => rw [hg] at h; exact Except.noConfusion h
      | ok p =>
        obtain ⟨data, st1⟩ := p
        rw [hg] at h
        cases data with
        | null =>
          simp only [Except.ok.injEq, Prod.mk.injEq] at h
          obtain ⟨h1, h2⟩ := h
          exact absurd h1.symm hv
        | bool b =>
          simp only [Except.ok.injEq, Prod.mk.injEq] at h
          obtain ⟨h1, h2⟩ := h
          subst h1; subst h2
          exact getd_setk_self _ _ _
        | num n =>
          simp only [Except.ok.injEq, Prod.mk.injEq] at h
          obtain ⟨h1, h2⟩ := h
          subst h1; subst h2
          exact getd_setk_self _ _ _
        | str s =>
          simp only [Except.ok.injEq, Prod.mk.injEq] at h
          obtain ⟨h1, h2⟩ := h
          subst h1; subst h2
          exact getd_setk_self _ _ _
        | arr l =>
          simp only [Except.ok.injEq, Prod.mk.injEq] at h
          obtain ⟨h1, h2⟩ := h
          subst h1; subst h2
          exact getd_setk_self _ _ _
        | obj m =>
          simp only [Except.ok.injEq, Prod.mk.injEq] at h
          obtain ⟨h1, h2⟩ := h
          subst h1; subst h2
          exact getd_setk_self _ _ _
  | bool b =>
    rw [hc] at h
    simp only [Except.ok.injEq, Prod.mk.injEq] at h
    obtain ⟨h1, h2⟩ := h
    subst h1; subst h2
    exact hc
  | num n =>
    rw [hc] at h
    simp only [Except.ok.injEq, Prod.mk.injEq] at h
    obtain ⟨h1, h2⟩ := h
    subst h1; subst h2
    exact hc
  | str s =>
    rw [hc] at h
    simp only [Except.ok.injEq, Prod.mk.injEq] at h
    obtain ⟨h1, h2⟩ := h
    subst h1; subst h2
    exact hc
  | arr l =>
    rw [hc] at h
    simp only [Except.ok.injEq, Prod.mk.injEq] at h
    obtain ⟨h1, h2⟩ := h
    subst h1; subst h2
    exact hc
  | obj m =>
    rw [hc] at h
    simp only [Except.ok.injEq, Prod.mk.injEq] at h
    obtain ⟨h1, h2⟩ := h
    subst h1; subst h2
    exact hc

/-- C4: whenever `get_character(id)` returns a mapping, a second call against
the unchanged cache returns the identical mapping and leaves the state
(including the list of issued requests) unchanged — no new network call. -/
theorem c4_second_get_character_cache_hit (cfg : ClientCfg) (st : ClientSt)
    (cid : Json) (v : Json) (st' : ClientSt)
    (h : get_character cfg st cid = Except.ok (v, st')) (hv : v ≠ Json.null) :
    get_character cfg st' cid = Except.ok (v, st') := by
  have hk := get_character_caches cfg st cid v st' h hv
  simp only [get_character]
  rw [hk]
  cases v with
  | null => exact absurd rfl hv
  | bool b => rfl
  | num n => rfl
  | str s => rfl
  | arr l => rfl
  | obj m => rfl

/-- Witness for C4: token mode; after a first `get_character(5)` fetched and
cached a record, a second call returns the same record with no state change
(the request list stays at one entry). -/
theorem c4_witness :
    get_character
      { token := "t", tr := fun _ => TOutcome.ok (Json.obj [("id", Json.str "5")]),
        trAll := TOutcome.timeout }
      { cache := [("char_5", Json.obj [("id", Json.str "5")])],
        reqs := [Req.api "https://superheroapi.com/api/t/5"] }
      (Json.num 5) =
      Except.ok (Json.obj [("id", Json.str "5")],
        { cache := [("char_5", Json.obj [("id", Json.str "5")])],
          reqs := [Req.api "https://superheroapi.com/api/t/5"] }) :=
  c4_second_get_character_cache_hit _ { cache := [], reqs := [] } _ _ _
    (by rfl) (fun hh => Json.noConfusion hh)
/-- A cached hero-list snapshot is returned as-is, with no state change. -/
theorem get_hero_list_hit (cfg : ClientCfg) (st : ClientSt)
    (idr : Option (List Int)) (v : Json)
    (hk : getd st.cache HERO_LIST_KEY = v) (hv : v ≠ Json.null) :
    get_hero_list cfg st idr = Except.ok (v, st) := by
  simp only [get_hero_list]
  rw [hk]
  cases v with
  | null => exact absurd rfl hv
  | bool b => rfl
  | num n => rfl
  | str s => rfl
  | arr l => rfl
  | obj m => rfl

/-- C5 counterexample: in anonymous mode with a failing transport, neither
call caches anything, so calling `get_hero_list()` twice fetches the fallback
dataset URL twice — not "at most once", and the second call is not served
from a snapshot. -/
theorem c5_counterexample :
    get_hero_list
      { token := "", tr := fun _ => TOutcome.timeout, trAll := TOutcome.timeout }
      { cache := [], reqs := [] } none =
      Except.ok (Json.arr [], { cache := [], reqs := [Req.allJson] }) ∧
    get_hero_list
      { token := "", tr := fun _ => TOutcome.timeout, trAll := TOutcome.timeout }
      { cache := [], reqs := [Req.allJson] } none =
      Except.ok (Json.arr [], { cache := [], reqs := [Req.allJson, Req.allJson] }) ∧
    countAllJson [Req.allJson, Req.allJson] = 2 :=
  ⟨rfl, rfl, rfl⟩

/-- C5 (amended): in anonymous mode, when the first `get_hero_list()` call
returns a non-empty result (the fallback fetch succeeded with at least one
hero, or a snapshot was already cached), the snapshot is cached and the
second call is served from it: it returns the identical value and leaves the
state — including the recorded requests — unchanged, so the dataset URL is
fetched at most once over the two calls.  (When the fetch fails or yields no
heroes, nothing is cached and the next call fetches again.) -/
theorem c5_anonymous_second_call_cached (cfg : ClientCfg) (st : ClientSt)
    (v : Json) (st1 : ClientSt)
    (htok : cfg.token = "")
    (h : get_hero_list cfg st none = Except.ok (v, st1))
    (hv : v ≠ Json.null) (hne : v ≠ Json.arr []) :
    get_hero_list cfg st1 none = Except.ok (v, st1) := by
  simp only [get_hero_list] at h
  cases hsnap : getd st.cache HERO_LIST_KEY with
  | null =>
    rw [hsnap, if_pos htok] at h
    simp only [_fetch_all_fallback] at h
    rw [hsnap] at h
    cases hta : cfg.trAll with
    | timeout =>
      rw [hta] at h
      simp only [Except.ok.injEq, Prod.mk.injEq] at h
      exact absurd h.1.symm hne
    | connError =>
      rw [hta] at h
      simp only [Except.ok.injEq, Prod.mk.injEq] at h
      exact absurd h.1.symm hne
    | httpError =>
      rw [hta] at h
      simp only [Except.ok.injEq, Prod.mk.injEq] at h
      exact absurd h.1.symm hne
    | parseError =>
      rw [hta] at h
      simp only [Except.ok.injEq, Prod.mk.injEq] at h
      exact absurd h.1.symm hne
    | ok raw =>
      rw [hta] at h
      simp only at h
      cases hit : pyIter raw with
      | error e => rw [hit] at h; exact Except.noConfusion h
      | ok items =>
        rw [hit] at h
        simp only at h
        cases hl : fallbackLoop items st.cache [] with
        | error e => rw [hl] at h; exact Except.noConfusion h
        | ok p =>
          obtain ⟨heroes, cache1⟩ := p
          rw [hl] at h
          simp only at h
          cases heroes with
          | nil =>
            simp only [Except.ok.injEq, Prod.mk.injEq] at h
            exact absurd h.1.symm hne
          | cons hh ht =>
            simp only [Except.ok.injEq, Prod.mk.injEq] at h
            obtain ⟨h1, h2⟩ := h
            subst h1
            subst h2
            exact get_hero_list_hit _ _ _ _ (getd_setk_self _ _ _) hv
  | bool b =>
    rw [hsnap] at h
    simp only [Except.ok.injEq, Prod.mk.injEq] at h
    obtain ⟨h1, h2⟩ := h
    subst h1; subst h2
    exact get_hero_list_hit _ _ _ _ hsnap hv
  | num n =>
    rw [hsnap] at h
    simp only [Except.ok.injEq, Prod.mk.injEq] at h
    obtain ⟨h1, h2⟩ := h
    subst h1; subst h2
    exact get_hero_list_hit _ _ _ _ hsnap hv
  | str s =>
    rw [hsnap] at h
    simp only [Except.ok.injEq, Prod.mk.injEq] at h
    obtain ⟨h1, h2⟩ := h
    subst h1; subst h2
    exact get_hero_list_hit _ _ _ _ hsnap hv
  | arr l =>
    rw [hsnap] at h
    simp only [Except.ok.injEq, Prod.mk.injEq] at h
    obtain ⟨h1, h2⟩ := h
    subst h1; subst h2
    exact get_hero_list_hit _ _ _ _ hsnap hv
  | obj m =>
    rw [hsnap] at h
    simp only [Except.ok.injEq, Prod.mk.injEq] at h
    obtain ⟨h1, h2⟩ := h
    subst h1; subst h2
    exact get_hero_list_hit _ _ _ _ hsnap hv

/-- Witness for C5 (amended): anonymous mode, fallback fetch succeeded with
one hero on the first call; the second call returns the same list from the
snapshot without touching the transport (the request list stays `[allJson]`). -/
theorem c5_witness :
    get_hero_list
      { token := "", tr := fun _ => TOutcome.timeout,
        trAll := TOutcome.ok (Json.arr [Json.obj [("id", Json.num 1),
          ("name", Json.str "H"),
          ("appearance", Json.obj [("eyeColor", Json.str "Blue")])]]) }
      { cache := [("char_1", Json.obj [("id", Json.num 1), ("name", Json.str "H"),
          ("appearance", Json.obj [("eyeColor", Json.str "Blue")])]),
        ("__hero_list__", Json.arr [Json.obj [("id", Json.str "1"),
          ("name", Json.str "H"),
          ("appearance", Json.obj [("gender", Json.null), ("race", Json.null),
            ("height", Json.arr []), ("weight", Json.arr []),
            ("eye-color", Json.str "Blue"), ("hair-color", Json.null)])]])],
        reqs := [Req.allJson] } none =
    Except.ok (Json.arr [Json.obj [("id", Json.str "1"), ("name", Json.str "H"),
        ("appearance", Json.obj [("gender", Json.null), ("race", Json.null),
          ("height", Json.arr []), ("weight", Json.arr []),
          ("eye-color", Json.str "Blue"), ("hair-color", Json.null)])]],
      { cache := [("char_1", Json.obj [("id", Json.num 1), ("name", Json.str "H"),
          ("appearance", Json.obj [("eyeColor", Json.str "Blue")])]),
        ("__hero_list__", Json.arr [Json.obj [("id", Json.str "1"),
          ("name", Json.str "H"),
          ("appearance", Json.obj [("gender", Json.null), ("race", Json.null),
            ("height", Json.arr []), ("weight", Json.arr []),
            ("eye-color", Json.str "Blue"), ("hair-color", Json.null)])]])],
        reqs := [Req.allJson] }) :=
  c5_anonymous_second_call_cached _ { cache := [], reqs := [] } _ _
    rfl (by rfl) (fun hh => Json.noConfusion hh)
    (fun hh => List.noConfusion (Json.arr.inj hh))
/-- The fallback loop writes only `char_*` keys: the snapshot entry is
untouched. -/
theorem fallbackLoop_snapshot_eq (items : List Json) (cache : List (String × Json))
    (acc : List Json) (hs : List Json) (cache' : List (String × Json))
    (h : fallbackLoop items cache acc = Except.ok (hs, cache')) :
    getd cache' HERO_LIST_KEY = getd cache HERO_LIST_KEY := by
  induction items generalizing cache acc with
  | nil =>
    simp only [fallbackLoop, Except.ok.injEq, Prod.mk.injEq] at h
    rw [← h.2]
  | cons item rest ih =>
    simp only [fallbackLoop] at h
    cases hn : normalizeItem item with
    | error e => rw [hn] at h; exact Except.noConfusion h
    | ok hero =>
      rw [hn] at h
      simp only at h
      cases item with
      | obj m =>
        have := ih _ _ h
        rw [this, getd_setk_other _ _ _ _ (Ne.symm (charKey_ne_snapshot _))]
      | null => exact Except.noConfusion h
      | bool b => exact Except.noConfusion h
      | num n => exact Except.noConfusion h
      | str s => exact Except.noConfusion h
      | arr l => exact Except.noConfusion h

/-- In token mode `get_character` writes at most a `char_*` key, so the
snapshot entry is untouched. -/
theorem get_character_token_snapshot_eq (cfg : ClientCfg) (st : ClientSt)
    (cid : Json) (r : Json) (st1 : ClientSt)
    (htok : cfg.token ≠ "")
    (h : get_character cfg st cid = Except.ok (r, st1)) :
    getd st1.cache HERO_LIST_KEY = getd st.cache HERO_LIST_KEY := by
  simp only [get_character] at h
  cases hc : getd st.cache ("char_" ++ pyStr cid) with
  | null =>
    rw [hc, if_neg htok] at h
    cases hg : _get cfg st (pyStr cid) with
    | error e => rw [hg] at h; exact Except.noConfusion h
    | ok p =>
      obtain ⟨data, st2⟩ := p
      have hcc := _get_cache_eq cfg st _ _ _ hg
      rw [hg] at h
      cases data with
      | null =>
        simp only [Except.ok.injEq, Prod.mk.injEq] at h
        rw [← h.2, hcc]
      | bool b =>
        simp only [Except.ok.injEq, Prod.mk.injEq] at h
        rw [← h.2]
        simp only
        rw [getd_setk_other _ _ _ _ (Ne.symm (charKey_ne_snapshot _)), hcc]
      | num n =>
        simp only [Except.ok.injEq, Prod.mk.injEq] at h
        rw [← h.2]
        simp only
        rw [getd_setk_other _ _ _ _ (Ne.symm (charKey_ne_snapshot _)), hcc]
      | str s =>
        simp only [Except.ok.injEq, Prod.mk.injEq] at h
        rw [← h.2]
        simp only
        rw [getd_setk_other _ _ _ _ (Ne.symm (charKey_ne_snapshot _)), hcc]
      | arr l =>
        simp only [Except.ok.injEq, Prod.mk.injEq] at h
        rw [← h.2]
        simp only
        rw [getd_setk_other _ _ _ _ (Ne.symm (charKey_ne_snapshot _)), hcc]
      | obj m =>
        simp only [Except.ok.injEq, Prod.mk.injEq] at h
        rw [← h.2]
        simp only
        rw [getd_setk_other _ _ _ _ (Ne.symm (charKey_ne_snapshot _)), hcc]
  | bool b =>
    rw [hc] at h
    simp only [Except.ok.injEq, Prod.mk.injEq] at h
    rw [← h.2]
  | num n =>
    rw [hc] at h
    simp only [Except.ok.injEq, Prod.mk.injEq] at h
    rw [← h.2]
  | str s =>
    rw [hc] at h
    simp only [Except.ok.injEq, Prod.mk.injEq] at h
    rw [← h.2]
  | arr l =>
    rw [hc] at h
    simp only [Except.ok.injEq, Prod.mk.injEq] at h
    rw [← h.2]
  | obj m =>
    rw [hc] at h
    simp only [Except.ok.injEq, Prod.mk.injEq] at h
    rw [← h.2]

/-- The token-mode hero-list loop never touches the snapshot entry. -/
theorem heroListLoop_snapshot_eq (cfg : ClientCfg) (ids : List Int)
    (st : ClientSt) (acc heroes : List Json) (st1 : ClientSt)
    (htok : cfg.token ≠ "")
    (h : heroListLoop cfg ids st acc = Except.ok (heroes, st1)) :
    getd st1.cache HERO_LIST_KEY = getd st.cache HERO_LIST_KEY := by
  induction ids generalizing st acc with
  | nil =>
    simp only [heroListLoop, Except.ok.injEq, Prod.mk.injEq] at h
    rw [← h.2]
  | cons i rest ih =>
    simp only [heroListLoop] at h
    cases hg : get_character cfg st (Json.num i) with
    | error e => rw [hg] at h; exact Except.noConfusion h
    | ok p =>
      obtain ⟨char, st2⟩ := p
      have hsnap := get_character_token_snapshot_eq cfg st _ _ _ htok hg
      rw [hg] at h
      simp only at h
      by_cases ht : pyTruthy char = true
      · rw [ht] at h
        simp only [if_true] at h
        cases char with
        | obj m =>
          rw [ih _ _ h, hsnap]
        | null => exact Except.noConfusion h
        | bool b => exact Except.noConfusion h
        | num n => exact Except.noConfusion h
        | str s => exact Except.noConfusion h
        | arr l => exact Except.noConfusion h
      · rw [Bool.not_eq_true] at ht
        rw [ht] at h
        simp only [Bool.false_eq_true, if_false] at h
        rw [ih _ _ h, hsnap]

/-- C6: `get_hero_list` never caches an empty result.  Starting from a state
with no hero-list snapshot, a run (token mode over any id range, or the
anonymous fallback) returns some list `hs`; if `hs` is empty the snapshot key
is still absent afterwards (so a later call retries), and if `hs` is
non-empty the snapshot now holds exactly `hs`. -/
theorem c6_never_caches_empty_hero_list (cfg : ClientCfg) (st : ClientSt)
    (idr : Option (List Int)) (v : Json) (st' : ClientSt)
    (h : get_hero_list cfg st idr = Except.ok (v, st'))
    (hsnap : getd st.cache HERO_LIST_KEY = Json.null) :
    ∃ hs, v = Json.arr hs ∧
      (hs = [] → getd st'.cache HERO_LIST_KEY = Json.null) ∧
      (hs ≠ [] → getd st'.cache HERO_LIST_KEY = Json.arr hs) := by
  simp only [get_hero_list] at h
  rw [hsnap] at h
  by_cases htok : cfg.token = ""
  · rw [if_pos htok] at h
    simp only [_fetch_all_fallback] at h
    rw [hsnap] at h
    cases hta : cfg.trAll with
    | ok raw =>
      rw [hta] at h
      simp only at h
      cases hit : pyIter raw with
      | error e => rw [hit] at h; exact Except.noConfusion h
      | ok items =>
        rw [hit] at h
        simp only at h
        cases hl : fallbackLoop items st.cache [] with
        | error e => rw [hl] at h; exact Except.noConfusion h
        | ok p =>
          obtain ⟨heroes, cache1⟩ := p
          rw [hl] at h
          simp only at h
          have hpres := fallbackLoop_snapshot_eq _ _ _ _ _ hl
          cases heroes with
          | nil =>
            simp only [Except.ok.injEq, Prod.mk.injEq] at h
            obtain ⟨h1, h2⟩ := h
            refine ⟨[], h1.symm, fun _ => ?_, fun hne => absurd rfl hne⟩
            rw [← h2]
            rw [hsnap] at hpres
            exact hpres
          | cons hh ht =>
            simp only [Except.ok.injEq, Prod.mk.injEq] at h
            obtain ⟨h1, h2⟩ := h
            refine ⟨hh :: ht, h1.symm,
              fun hemp => absurd hemp (List.cons_ne_nil _ _), fun _ => ?_⟩
            rw [← h2]
            exact getd_setk_self _ _ _
    | timeout =>
      rw [hta] at h
      simp only [Except.ok.injEq, Prod.mk.injEq] at h
      obtain ⟨h1, h2⟩ := h
      refine ⟨[], h1.symm, fun _ => ?_, fun hne => absurd rfl hne⟩
      rw [← h2]
      exact hsnap
    | connError =>
      rw [hta] at h
      simp only [Except.ok.injEq, Prod.mk.injEq] at h
      obtain ⟨h1, h2⟩ := h
      refine ⟨[], h1.symm, fun _ => ?_, fun hne => absurd rfl hne⟩
      rw [← h2]
      exact hsnap
    | httpError =>
      rw [hta] at h
      simp only [Except.ok.injEq, Prod.mk.injEq] at h
      obtain ⟨h1, h2⟩ := h
      refine ⟨[], h1.symm, fun _ => ?_, fun hne => absurd rfl hne⟩
      rw [← h2]
      exact hsnap
    | parseError =>
      rw [hta] at h
      simp only [Except.ok.injEq, Prod.mk.injEq] at h
      obtain ⟨h1, h2⟩ := h
      refine ⟨[], h1.symm, fun _ => ?_, fun hne => absurd rfl hne⟩
      rw [← h2]
      exact hsnap
  · rw [if_neg htok] at h
    cases hl : heroListLoop cfg
        (idr.getD ((List.range 100).map fun n => (n : Int) + 1)) st [] with
    | error e => rw [hl] at h; exact Except.noConfusion h
    | ok p =>
      obtain ⟨heroes, st1⟩ := p
      rw [hl] at h
      simp only at h
      have hpres := heroListLoop_snapshot_eq _ _ _ _ _ _ htok hl
      cases heroes with
      | nil =>
        simp only [Except.ok.injEq, Prod.mk.injEq] at h
        obtain ⟨h1, h2⟩ := h
        refine ⟨[], h1.symm, fun _ => ?_, fun hne => absurd rfl hne⟩
        rw [← h2]
        rw [hsnap] at hpres
        exact hpres
      | cons hh ht =>
        simp only [Except.ok.injEq, Prod.mk.injEq] at h
        obtain ⟨h1, h2⟩ := h
        refine ⟨hh :: ht, h1.symm,
          fun hemp => absurd hemp (List.cons_ne_nil _ _), fun _ => ?_⟩
        rw [← h2]
        exact getd_setk_self _ _ _

/-- Witness for C6: token mode over id range `[1, 2]` with a failing
transport: the result is the empty list and the snapshot key stays absent. -/
theorem c6_witness :
    ∃ hs, (Json.arr [] : Json) = Json.arr hs ∧
      (hs = [] → getd
        ({ cache := [],
           reqs := [Req.api "https://superheroapi.com/api/t/1",
             Req.api "https://superheroapi.com/api/t/2"] } : ClientSt).cache
        HERO_LIST_KEY = Json.null) ∧
      (hs ≠ [] → getd
        ({ cache := [],
           reqs := [Req.api "https://superheroapi.com/api/t/1",
             Req.api "https://superheroapi.com/api/t/2"] } : ClientSt).cache
        HERO_LIST_KEY = Json.arr hs) :=
  c6_never_caches_empty_hero_list
    { token := "t", tr := fun _ => TOutcome.timeout, trAll := TOutcome.timeout }
    { cache := [], reqs := [] } (some [1, 2]) _ _ (by rfl) (by rfl)
theorem getd_nil (k : String) : getd [] k = Json.null := rfl

/-- With a token and an all-failing transport, `_get` returns None and only
records the request. -/
theorem _get_failing (cfg : ClientCfg) (hf : ∀ p, (cfg.tr p).isFailure = true)
    (htok : cfg.token ≠ "") (st : ClientSt) (p : String) :
    _get cfg st p = Except.ok (Json.null,
      { st with reqs := st.reqs ++ [Req.api (SUPERHERO_API_BASE ++ "/" ++
        cfg.token ++ "/" ++ String.mk (p.toList.dropWhile fun c => c = '/'))] }) := by
  unfold _get _url
  rw [if_neg htok, if_neg htok]
  cases hta : cfg.tr p with
  | ok body =>
    have hb := hf p
    rw [hta] at hb
    simp [TOutcome.isFailure] at hb
  | timeout => rfl
  | connError => rfl
  | httpError => rfl
  | parseError => rfl

/-- With an all-failing transport, the fallback fetch from an empty cache
returns the empty list and caches nothing. -/
theorem _fetch_all_fallback_failing (cfg : ClientCfg)
    (hfa : cfg.trAll.isFailure = true) (reqs : List Req) :
    _fetch_all_fallback cfg { cache := [], reqs := reqs } =
      Except.ok (Json.arr [], { cache := [], reqs := reqs ++ [Req.allJson] }) := by
  simp only [_fetch_all_fallback, getd_nil]
  cases hta : cfg.trAll with
  | ok raw =>
    rw [hta] at hfa
    simp [TOutcome.isFailure] at hfa
  | timeout => rfl
  | connError => rfl
  | httpError => rfl
  | parseError => rfl

/-- With an all-failing transport and an empty cache, `get_character` returns
None and leaves the cache empty (both modes). -/
theorem get_character_failing (cfg : ClientCfg)
    (hf : ∀ p, (cfg.tr p).isFailure = true) (hfa : cfg.trAll.isFailure = true)
    (reqs : List Req) (cid : Json) :
    ∃ reqs1, get_character cfg { cache := [], reqs := reqs } cid =
      Except.ok (Json.null, { cache := [], reqs := reqs1 }) := by
  simp only [get_character, getd_nil]
  by_cases htok : cfg.token = ""
  · rw [if_pos htok, _fetch_all_fallback_failing cfg hfa reqs]
    exact ⟨reqs ++ [Req.allJson], rfl⟩
  · rw [if_neg htok, _get_failing cfg hf htok _ _]
    exact ⟨_, rfl⟩

/-- With an all-failing transport and an empty cache, `get_appearance`
returns None. -/
theorem get_appearance_failing (cfg : ClientCfg)
    (hf : ∀ p, (cfg.tr p).isFailure = true) (hfa : cfg.trAll.isFailure = true)
    (reqs : List Req) (cid : Json) :
    ∃ st2, get_appearance cfg { cache := [], reqs := reqs } cid =
      Except.ok (Json.null, st2) := by
  obtain ⟨reqs1, hg⟩ := get_character_failing cfg hf hfa reqs cid
  simp only [get_appearance]
  rw [hg]
  simp only [pyTruthy, Bool.false_eq_true, if_false, getd_nil]
  by_cases htok : cfg.token = ""
  · rw [if_pos htok]
    exact ⟨_, rfl⟩
  · rw [if_neg htok, _get_failing cfg hf htok _ _]
    exact ⟨_, rfl⟩

/-- With an all-failing transport and an empty cache, `get_biography`
returns None. -/
theorem get_biography_failing (cfg : ClientCfg)
    (hf : ∀ p, (cfg.tr p).isFailure = true) (hfa : cfg.trAll.isFailure = true)
    (reqs : List Req) (cid : Json) :
    ∃ st2, get_biography cfg { cache := [], reqs := reqs } cid =
      Except.ok (Json.null, st2) := by
  obtain ⟨reqs1, hg⟩ := get_character_failing cfg hf hfa reqs cid
  simp only [get_biography]
  rw [hg]
  simp only [pyTruthy, Bool.false_eq_true, if_false, getd_nil]
  by_cases htok : cfg.token = ""
  · rw [if_pos htok]
    exact ⟨_, rfl⟩
  · rw [if_neg htok, _get_failing cfg hf htok _ _]
    exact ⟨_, rfl⟩

/-- With an all-failing transport and an empty cache, `get_powerstats`
returns None. -/
theorem get_powerstats_failing (cfg : ClientCfg)
    (hf : ∀ p, (cfg.tr p).isFailure = true) (hfa : cfg.trAll.isFailure = true)
    (reqs : List Req) (cid : Json) :
    ∃ st2, get_powerstats cfg { cache := [], reqs := reqs } cid =
      Except.ok (Json.null, st2) := by
  obtain ⟨reqs1, hg⟩ := get_character_failing cfg hf hfa reqs cid
  simp only [get_powerstats]
  rw [hg]
  simp only [pyTruthy, Bool.false_eq_true, if_false, getd_nil]
  by_cases htok : cfg.token = ""
  · rw [if_pos htok]
    exact ⟨_, rfl⟩
  · rw [if_neg htok, _get_failing cfg hf htok _ _]
    exact ⟨_, rfl⟩

/-- With an all-failing transport, the token-mode hero loop finds nothing and
leaves the cache empty. -/
theorem heroListLoop_failing (cfg : ClientCfg)
    (hf : ∀ p, (cfg.tr p).isFailure = true) (hfa : cfg.trAll.isFailure = true)
    (ids : List Int) :
    ∀ reqs acc, ∃ reqs1, heroListLoop cfg ids { cache := [], reqs := reqs } acc =
      Except.ok (acc, { cache := [], reqs := reqs1 }) := by
  induction ids with
  | nil => exact fun reqs acc => ⟨reqs, rfl⟩
  | cons i rest ih =>
    intro reqs acc
    obtain ⟨reqs1, hg⟩ := get_character_failing cfg hf hfa reqs (Json.num i)
    simp only [heroListLoop]
    rw [hg]
    simp only [pyTruthy, Bool.false_eq_true, if_false]
    exact ih reqs1 acc

/-- With an all-failing transport and an empty cache, `get_hero_list`
returns the empty list. -/
theorem get_hero_list_failing (cfg : ClientCfg)
    (hf : ∀ p, (cfg.tr p).isFailure = true) (hfa : cfg.trAll.isFailure = true)
    (reqs : List Req) (idr : Option (List Int)) :
    ∃ st5, get_hero_list cfg { cache := [], reqs := reqs } idr =
      Except.ok (Json.arr [], st5) := by
  simp only [get_hero_list, getd_nil]
  by_cases htok : cfg.token = ""
  · rw [if_pos htok, _fetch_all_fallback_failing cfg hfa reqs]
    exact ⟨_, rfl⟩
  · rw [if_neg htok]
    obtain ⟨reqs1, hl⟩ := heroListLoop_failing cfg hf hfa
      (idr.getD ((List.range 100).map fun n => (n : Int) + 1)) reqs []
    rw [hl]
    exact ⟨_, rfl⟩

/-- C9: no error escapes the client's public operations: for every id and
every transport outcome among timeout, connection error, non-2xx status, and
JSON-parse failure (an all-failing stub), starting from an empty cache,
get_character, get_appearance, get_biography, get_powerstats and
get_hero_list all return None (or the empty list) rather than raising — in
both token and anonymous mode; and with no token configured the ValueError
is raised only by the low-level `_url` helper, which `_get` never reaches
(it short-circuits to None first). -/
theorem c9_no_error_escapes (cfg : ClientCfg) (st : ClientSt) (cid : Json)
    (idr : Option (List Int))
    (hf : ∀ p, (cfg.tr p).isFailure = true) (hfa : cfg.trAll.isFailure = true)
    (hc : st.cache = []) :
    (∃ st1, get_character cfg st cid = Except.ok (Json.null, st1)) ∧
    (∃ st2, get_appearance cfg st cid = Except.ok (Json.null, st2)) ∧
    (∃ st3, get_biography cfg st cid = Except.ok (Json.null, st3)) ∧
    (∃ st4, get_powerstats cfg st cid = Except.ok (Json.null, st4)) ∧
    (∃ st5, get_hero_list cfg st idr = Except.ok (Json.arr [], st5)) ∧
    (cfg.token = "" → _url cfg (pyStr cid) = Except.error PyErr.valueError) := by
  obtain ⟨cache0, reqs0⟩ := st
  simp only at hc
  subst hc
  refine ⟨?_, get_appearance_failing cfg hf hfa reqs0 cid,
    get_biography_failing cfg hf hfa reqs0 cid,
    get_powerstats_failing cfg hf hfa reqs0 cid,
    get_hero_list_failing cfg hf hfa reqs0 idr,
    fun htok => by simp [_url, htok]⟩
  obtain ⟨reqs1, hg⟩ := get_character_failing cfg hf hfa reqs0 cid
  exact ⟨_, hg⟩

/-- Witness for C9: anonymous mode, timing-out transport, empty cache,
id 1, default id range. -/
theorem c9_witness :
    (∃ st1, get_character
      { token := "", tr := fun _ => TOutcome.timeout, trAll := TOutcome.timeout }
      { cache := [], reqs := [] } (Json.num 1) = Except.ok (Json.null, st1)) ∧
    (∃ st2, get_appearance
      { token := "", tr := fun _ => TOutcome.timeout, trAll := TOutcome.timeout }
      { cache := [], reqs := [] } (Json.num 1) = Except.ok (Json.null, st2)) ∧
    (∃ st3, get_biography
      { token := "", tr := fun _ => TOutcome.timeout, trAll := TOutcome.timeout }
      { cache := [], reqs := [] } (Json.num 1) = Except.ok (Json.null, st3)) ∧
    (∃ st4, get_powerstats
      { token := "", tr := fun _ => TOutcome.timeout, trAll := TOutcome.timeout }
      { cache := [], reqs := [] } (Json.num 1) = Except.ok (Json.null, st4)) ∧
    (∃ st5, get_hero_list
      { token := "", tr := fun _ => TOutcome.timeout, trAll := TOutcome.timeout }
      { cache := [], reqs := [] } none = Except.ok (Json.arr [], st5)) ∧
    (({ token := "", tr := (fun _ => TOutcome.timeout),
            trAll := TOutcome.timeout } : ClientCfg).token = "" →
      _url ({ token := "", tr := (fun _ => TOutcome.timeout),
              trAll := TOutcome.timeout } : ClientCfg) (pyStr (Json.num 1)) =
        Except.error PyErr.valueError) :=
  c9_no_error_escapes _ _ (Json.num 1) none (fun _ => rfl) rfl rfl
theorem mapNormalize_length (items tl : List Json)
    (h : mapNormalize items = Except.ok tl) : tl.length = items.length := by
  induction items generalizing tl with
  | nil =>
    simp only [mapNormalize, Except.ok.injEq] at h
    rw [← h]
  | cons x xs ih =>
    simp only [mapNormalize] at h
    cases hn : normalizeItem x with
    | error e => rw [hn] at h; exact Except.noConfusion h
    | ok y =>
      rw [hn] at h
      cases hr : mapNormalize xs with
      | error e => rw [hr] at h; exact Except.noConfusion h
      | ok ys =>
        rw [hr] at h
        simp only [Except.ok.injEq] at h
        rw [← h]
        simp [ih ys hr]

theorem mapNormalize_mem_ok (items tl : List Json) (item : Json)
    (h : mapNormalize items = Except.ok tl) (hmem : item ∈ items) :
    ∃ y, normalizeItem item = Except.ok y := by
  induction items generalizing tl with
  | nil => cases hmem
  | cons x xs ih =>
    simp only [mapNormalize] at h
    cases hn : normalizeItem x with
    | error e => rw [hn] at h; exact Except.noConfusion h
    | ok y =>
      rw [hn] at h
      cases hr : mapNormalize xs with
      | error e => rw [hr] at h; exact Except.noConfusion h
      | ok ys =>
        cases hmem with
        | head => exact ⟨y, hn⟩
        | tail _ hmem2 => exact ih ys hr hmem2

/-- When every entry normalises, the fallback loop returns the accumulated
summaries and the cache extended with each raw entry under its `char_*` key. -/
theorem fallbackLoop_eq (items tl : List Json)
    (hm : mapNormalize items = Except.ok tl) :
    ∀ cache acc, fallbackLoop items cache acc = Except.ok (acc ++ tl,
      items.foldl (fun c it => setk c (itemKey it) it) cache) := by
  induction items generalizing tl with
  | nil =>
    intro cache acc
    simp only [mapNormalize, Except.ok.injEq] at hm
    rw [← hm]
    simp [fallbackLoop]
  | cons x xs ih =>
    intro cache acc
    simp only [mapNormalize] at hm
    cases hn : normalizeItem x with
    | error e => rw [hn] at hm; exact Except.noConfusion hm
    | ok y =>
      rw [hn] at hm
      cases hr : mapNormalize xs with
      | error e => rw [hr] at hm; exact Except.noConfusion hm
      | ok ys =>
        rw [hr] at hm
        simp only [Except.ok.injEq] at hm
        subst hm
        simp only [fallbackLoop]
        rw [hn]
        simp only
        cases x with
        | obj m =>
          simp only
          rw [ih ys hr]
          simp only [List.foldl_cons, Except.ok.injEq, Prod.mk.injEq]
          constructor
          · simp [itemKey]
          · simp [itemKey]
        | null => simp only [normalizeItem] at hn; exact Except.noConfusion hn
        | bool b => simp only [normalizeItem] at hn; exact Except.noConfusion hn
        | num k => simp only [normalizeItem] at hn; exact Except.noConfusion hn
        | str s => simp only [normalizeItem] at hn; exact Except.noConfusion hn
        | arr l => simp only [normalizeItem] at hn; exact Except.noConfusion hn

/-- Folding the raw entries into the cache does not disturb other keys. -/
theorem foldl_setk_not_mem (items : List Json) (k : String)
    (hk : ∀ it ∈ items, itemKey it ≠ k) :
    ∀ cache, getd (items.foldl (fun c it => setk c (itemKey it) it) cache) k =
      getd cache k := by
  induction items with
  | nil => intro cache; rfl
  | cons x xs ih =>
    intro cache
    simp only [List.foldl_cons]
    rw [ih (fun it hit => hk it (List.mem_cons_of_mem x hit))]
    exact getd_setk_other _ _ _ _ (Ne.symm (hk x (List.mem_cons_self x xs)))

/-- With pairwise-distinct keys, each raw entry is found under its own key
after the fold. -/
theorem foldl_setk_mem (items : List Json) (item : Json)
    (hnd : (items.map itemKey).Nodup) (hmem : item ∈ items) :
    ∀ cache, getd (items.foldl (fun c it => setk c (itemKey it) it) cache)
      (itemKey item) = item := by
  induction items with
  | nil => cases hmem
  | cons x xs ih =>
    intro cache
    simp only [List.map_cons, List.nodup_cons] at hnd
    simp only [List.foldl_cons]
    cases hmem with
    | head =>
      rw [foldl_setk_not_mem xs (itemKey item)
        (fun it hit heq => hnd.1 (heq ▸ List.mem_map_of_mem itemKey hit))]
      exact getd_setk_self _ _ _
    | tail _ hmem2 =>
      exact ih hnd.2 hmem2 _

/-- The snapshot key is never one of the raw-entry keys. -/
theorem foldl_setk_snapshot (items : List Json) :
    ∀ cache, getd (items.foldl (fun c it => setk c (itemKey it) it) cache)
      HERO_LIST_KEY = getd cache HERO_LIST_KEY := by
  intro cache
  exact foldl_setk_not_mem items HERO_LIST_KEY
    (fun it _ => by unfold itemKey; exact charKey_ne_snapshot _) cache

/-- A record that normalises also extracts an appearance mapping. -/
theorem extractAppearance_of_normalize (it y : Json)
    (h : normalizeItem it = Except.ok y) :
    ∃ a, extractAppearance it = Except.ok a := by
  cases it with
  | obj m =>
    cases happ : pyOr (getd m "appearance") (Json.obj []) with
    | obj am =>
      exact ⟨Json.obj [("response", Json.str "success"), ("id", getd m "id"),
        ("name", getd m "name"), ("gender", getd am "gender"),
        ("race", getd am "race"),
        ("height", pyOr (getd am "height") (Json.arr [])),
        ("weight", pyOr (getd am "weight") (Json.arr [])),
        ("eye-color", pyOr (getd am "eyeColor") (getd am "eye-color")),
        ("hair-color", pyOr (getd am "hairColor") (getd am "hair-color"))],
        by simp only [extractAppearance]; rw [happ]⟩
    | null => simp only [normalizeItem, happ] at h; exact Except.noConfusion h
    | bool b => simp only [normalizeItem, happ] at h; exact Except.noConfusion h
    | num k => simp only [normalizeItem, happ] at h; exact Except.noConfusion h
    | str s => simp only [normalizeItem, happ] at h; exact Except.noConfusion h
    | arr l => simp only [normalizeItem, happ] at h; exact Except.noConfusion h
  | null => exact Except.noConfusion h
  | bool b => exact Except.noConfusion h
  | num k => exact Except.noConfusion h
  | str s => exact Except.noConfusion h
  | arr l => exact Except.noConfusion h

/-- C10: in anonymous mode, the fallback load caches each *raw* dataset entry
(original camelCase appearance keys, numeric id) under `char_{id}`, so
`get_character(id)` returns that raw un-normalised record, while the
canonical hyphenated-key form appears in the hero-list snapshot entries
(the `mapNormalize` results) and in the result of `get_appearance`. -/
theorem c10_fallback_caches_raw_entry (cfg : ClientCfg) (reqs : List Req)
    (items tl : List Json) (item : Json) (n : Int) (m : List (String × Json))
    (htok : cfg.token = "")
    (hta : cfg.trAll = TOutcome.ok (Json.arr items))
    (hmap : mapNormalize items = Except.ok tl)
    (hnd : (items.map itemKey).Nodup)
    (hmem : item ∈ items)
    (hobj : item = Json.obj m)
    (hid : getd m "id" = Json.num n) :
    (∃ st', get_character cfg { cache := [], reqs := reqs } (Json.num n) =
        Except.ok (item, st') ∧
      getd st'.cache (itemKey item) = item ∧
      getd st'.cache HERO_LIST_KEY = Json.arr tl) ∧
    (∃ a st2, extractAppearance item = Except.ok a ∧
      get_appearance cfg { cache := [], reqs := reqs } (Json.num n) =
        Except.ok (a, st2)) := by
  subst hobj
  have hkey : itemKey (Json.obj m) = "char_" ++ pyStr (Json.num n) := by
    unfold itemKey
    simp only
    rw [hid]
  cases htl : tl with
  | nil =>
    rw [htl] at hmap
    have hlen := mapNormalize_length items [] hmap
    cases items with
    | nil => cases hmem
    | cons a rest => exact absurd hlen (by simp)
  | cons hh ht =>
    rw [htl] at hmap
    have hfall : _fetch_all_fallback cfg { cache := [], reqs := reqs } =
        Except.ok (Json.arr (hh :: ht),
          { cache := setk
              (items.foldl (fun c it => setk c (itemKey it) it) [])
              HERO_LIST_KEY (Json.arr (hh :: ht)),
            reqs := reqs ++ [Req.allJson] }) := by
      simp only [_fetch_all_fallback, getd_nil]
      rw [hta]
      simp only [pyIter]
      rw [fallbackLoop_eq items (hh :: ht) hmap [] []]
      simp only [List.nil_append]
    have hlook : getd (setk
        (items.foldl (fun c it => setk c (itemKey it) it) [])
        HERO_LIST_KEY (Json.arr (hh :: ht))) ("char_" ++ pyStr (Json.num n)) =
        Json.obj m := by
      rw [getd_setk_other _ _ _ _ (charKey_ne_snapshot _), ← hkey]
      exact foldl_setk_mem items (Json.obj m) hnd hmem []
    have hgc : get_character cfg { cache := [], reqs := reqs } (Json.num n) =
        Except.ok (Json.obj m,
          { cache := setk
              (items.foldl (fun c it => setk c (itemKey it) it) [])
              HERO_LIST_KEY (Json.arr (hh :: ht)),
            reqs := reqs ++ [Req.allJson] }) := by
      simp only [get_character, getd_nil]
      rw [if_pos htok, hfall]
      simp only
      rw [hlook]
    refine ⟨⟨_, hgc, ?_, ?_⟩, ?_⟩
    · rw [hkey]
      exact hlook
    · exact getd_setk_self _ _ _
    · have hmt : pyTruthy (Json.obj m) = true := by
        cases m with
        | nil =>
          rw [getd_nil] at hid
          exact Json.noConfusion hid
        | cons p ms => simp [pyTruthy]
      obtain ⟨y, hy⟩ := mapNormalize_mem_ok items (hh :: ht) (Json.obj m) hmap hmem
      obtain ⟨a, ha⟩ := extractAppearance_of_normalize (Json.obj m) y hy
      refine ⟨a,
        { cache := setk (items.foldl (fun c it => setk c (itemKey it) it) [])
            HERO_LIST_KEY (Json.arr (hh :: ht)),
          reqs := reqs ++ [Req.allJson] }, ha, ?_⟩
      simp only [get_appearance]
      rw [hgc]
      simp only [hmt, if_true]
      rw [ha]

/-- Witness for C10: one dataset entry with camelCase `eyeColor` and numeric
id 1; `get_character(1)` returns it verbatim, the raw entry sits under its
`char_1` key, the snapshot holds the normalised (hyphenated) summary, and
`get_appearance(1)` returns the hyphenated-key mapping. -/
theorem c10_witness :
    (∃ st', get_character
        { token := "", tr := fun _ => TOutcome.timeout,
          trAll := TOutcome.ok (Json.arr [Json.obj [("id", Json.num 1),
            ("name", Json.str "H"),
            ("appearance", Json.obj [("eyeColor", Json.str "Blue")])]]) }
        { cache := [], reqs := [] } (Json.num 1) =
        Except.ok (Json.obj [("id", Json.num 1), ("name", Json.str "H"),
          ("appearance", Json.obj [("eyeColor", Json.str "Blue")])], st') ∧
      getd st'.cache (itemKey (Json.obj [("id", Json.num 1),
        ("name", Json.str "H"),
        ("appearance", Json.obj [("eyeColor", Json.str "Blue")])])) =
        Json.obj [("id", Json.num 1), ("name", Json.str "H"),
          ("appearance", Json.obj [("eyeColor", Json.str "Blue")])] ∧
      getd st'.cache HERO_LIST_KEY = Json.arr [Json.obj [("id", Json.str "1"),
        ("name", Json.str "H"),
        ("appearance", Json.obj [("gender", Json.null), ("race", Json.null),
          ("height", Json.arr []), ("weight", Json.arr []),
          ("eye-color", Json.str "Blue"), ("hair-color", Json.null)])]]) ∧
    (∃ a st2, extractAppearance (Json.obj [("id", Json.num 1),
        ("name", Json.str "H"),
        ("appearance", Json.obj [("eyeColor", Json.str "Blue")])]) =
        Except.ok a ∧
      get_appearance
        { token := "", tr := fun _ => TOutcome.timeout,
          trAll := TOutcome.ok (Json.arr [Json.obj [("id", Json.num 1),
            ("name", Json.str "H"),
            ("appearance", Json.obj [("eyeColor", Json.str "Blue")])]]) }
        { cache := [], reqs := [] } (Json.num 1) = Except.ok (a, st2)) :=
  c10_fallback_caches_raw_entry _ []
    [Json.obj [("id", Json.num 1), ("name", Json.str "H"),
      ("appearance", Json.obj [("eyeColor", Json.str "Blue")])]]
    [Json.obj [("id", Json.str "1"), ("name", Json.str "H"),
      ("appearance", Json.obj [("gender", Json.null), ("race", Json.null),
        ("height", Json.arr []), ("weight", Json.arr []),
        ("eye-color", Json.str "Blue"), ("hair-color", Json.null)])]]
    (Json.obj [("id", Json.num 1), ("name", Json.str "H"),
      ("appearance", Json.obj [("eyeColor", Json.str "Blue")])])
    1 _ rfl rfl rfl (by simp) (List.Mem.head _) rfl rfl
